import Mathlib

/-
Verification of the num_enum (simplified) derive crate.

The crate is a source-to-source transformer: `EnumInfo::parse` analyzes a
type declaration (enum check, search of the `repr` attribute, resolution of
variant discriminant expressions, using `wrapping_add` chains through named
constants), and three emitters generate conversion code from the analysis
result.  We embed the analyzer (`EnumInfo.parse`, from
num_enum_derive/src/lib.rs) and the runtime semantics of the generated code:
constant-chain evaluation in the representation type (wrapping modulo 2^w)
and the generated `try_from_primitive` match, plus the `From<Enum> for
Primitive` cast of the IntoPrimitive derive.
-/

set_option autoImplicit false

namespace NumEnum

/-- Discriminant expressions as produced by the analyzer: an integer literal
(`fn literal`), a reference to a previously generated named constant (a
variant identifier), or the synthesized `#repr::wrapping_add(#variant_ident, 1)`
call (whose first argument is itself an expression, in the generated code a
constant reference). -/
inductive Expr where
  | lit (n : Nat)
  | ident (name : String)
  | wrapping_add (e : Expr) (k : Nat)
  deriving DecidableEq, Repr, Inhabited

/-- Mirrors `fn literal(i: u64) -> Expr` in num_enum_derive/src/lib.rs. -/
def literal (i : Nat) : Expr := Expr.lit i

/-- One enum variant of the input declaration: its identifier and its
optional explicit discriminant expression. -/
structure Variant where
  ident : String
  discriminant : Option Expr
  deriving DecidableEq, Repr, Inhabited

/-- A nested argument of a `Meta::List` attribute: either a plain identifier
with its span, or any other token tree (e.g. `align(4)` or an integer
literal) that does not parse as an identifier, with its span. -/
inductive NestedArg where
  | ident (name : String) (span : Nat)
  | other (span : Nat)
  deriving DecidableEq, Repr

/-- A `Meta::List` style attribute: a single-identifier path (e.g. `repr`),
the source span of that path identifier, and the nested arguments, which
need not be identifiers. -/
structure MetaListAttr where
  path : String
  pathSpan : Nat
  args : List NestedArg
  deriving DecidableEq, Repr

/-- An attribute of the input declaration.  `other` stands for every
attribute the analyzer skips: those whose `parse_meta` is not a `Meta::List`,
or whose path is not a single identifier. -/
inductive Attr where
  | metaList (m : MetaListAttr)
  | other
  deriving DecidableEq, Repr

/-- The `data` of a `DeriveInput`: an enum with its variants, or a struct or
union carrying the span of its `struct`/`union` token. -/
inductive Data where
  | enumData (variants : List Variant)
  | structData (tokenSpan : Nat)
  | unionData (tokenSpan : Nat)
  deriving DecidableEq, Repr

/-- The parsed derive input: name, attributes, and data. -/
structure DeriveInput where
  ident : String
  attrs : List Attr
  data : Data
  deriving DecidableEq, Repr

/-- A source span: either `Span::call_site()` or a concrete source location. -/
inductive Span where
  | callSite
  | src (n : Nat)
  deriving DecidableEq, Repr

/-- A generation-time diagnostic (`syn::Error::new(span, msg)`), as raised by
the `die!` macro. -/
structure Diag where
  span : Span
  msg : String
  deriving DecidableEq, Repr

/-- How a generation request can fail: with a `die!` diagnostic
(`syn::Error`), or with a proc-macro panic — the latter happens when
`parse_quote!` is applied to a nested `repr` argument that is not a plain
identifier (`let repr: Ident = parse_quote! { #repr }`). -/
inductive Failure where
  | diag (d : Diag)
  | panicked
  deriving DecidableEq, Repr

/-- Mirrors the attribute loop in `EnumInfo::parse`: walk the attributes in
order; skip everything that is not a `Meta::List` with path `repr`; for the
first `repr` list found, fail unless it has exactly one nested argument,
panic if that argument does not parse as an identifier, fail if it is `C`,
and otherwise return the argument identifier and its span.  If no `repr`
list exists, fail with the missing-attribute diagnostic at the call site. -/
def findRepr : List Attr → Except Failure (String × Nat)
  | [] => .error (Failure.diag ⟨Span.callSite, "Missing `#[repr({Integer})]` attribute"⟩)
  | Attr.other :: attrs => findRepr attrs
  | Attr.metaList m :: attrs =>
    if m.path = "repr" then
      match m.args with
      | [arg] =>
        match arg with
        | NestedArg.ident r rspan =>
          if r = "C" then
            .error (Failure.diag
              ⟨Span.src rspan, "repr(C) doesn\x27t have a well defined size"⟩)
          else
            .ok (r, rspan)
        | NestedArg.other _ => .error Failure.panicked
      | _ => .error (Failure.diag
          ⟨Span.src m.pathSpan, "Expected exactly one `repr` argument"⟩)
    else
      findRepr attrs

/-- Mirrors the variant map with the mutable `next_discriminant` in
`EnumInfo::parse`: each variant keeps its explicit discriminant expression
verbatim, or receives the current `next_discriminant`; after each variant,
`next_discriminant` becomes `#repr::wrapping_add(#variant_ident, 1)`, a
reference to the constant named after the variant just emitted. -/
def resolveAux (next_discriminant : Expr) : List Variant → List (Expr × String)
  | [] => []
  | v :: vs =>
    let disc :=
      match v.discriminant with
      | some d => d
      | none => next_discriminant
    (disc, v.ident) :: resolveAux (Expr.wrapping_add (Expr.ident v.ident) 1) vs

/-- The discriminant resolution of `EnumInfo::parse`, starting from
`next_discriminant = literal(0)`. -/
def resolveDiscriminants (variants : List Variant) : List (Expr × String) :=
  resolveAux (literal 0) variants

/-- The analysis result, mirroring `struct EnumInfo`. -/
structure EnumInfo where
  name : String
  repr : String
  value_expressions_to_enum_keys : List (Expr × String)
  deriving DecidableEq, Repr

/-- Mirrors `impl Parse for EnumInfo`: reject non-enum inputs at the span of
the offending `struct`/`union` token, find the `repr` identifier, and resolve
the discriminant expressions in declaration order. -/
def EnumInfo.parse (input : DeriveInput) : Except Failure EnumInfo :=
  match input.data with
  | Data.structData sp => .error (Failure.diag ⟨Span.src sp, "Expected enum"⟩)
  | Data.unionData sp => .error (Failure.diag ⟨Span.src sp, "Expected enum"⟩)
  | Data.enumData variants =>
    match findRepr input.attrs with
    | .error e => .error e
    | .ok (reprId, _) =>
      .ok ⟨input.ident, reprId, resolveDiscriminants variants⟩

/-- Semantics of a discriminant expression in the representation type of
width `w`, under an environment binding previously evaluated constants:
a literal must fit in the type; an identifier reads the most recent constant
of that name; `wrapping_add` adds and reduces modulo `2 ^ w`. -/
def evalExpr (w : Nat) (env : List (String × Nat)) : Expr → Option Nat
  | Expr.lit n => if n < 2 ^ w then some n else none
  | Expr.ident x => env.lookup x
  | Expr.wrapping_add e k => (evalExpr w env e).map (fun a => (a + k) % 2 ^ w)

/-- Semantics of the block of generated constants
`const #enum_keys: #repr = #match_const_exprs;` in declaration order: each
constant is evaluated in the environment of the earlier ones and then added
to it, producing the list of (value, variant identifier) pairs. -/
def evalConsts (w : Nat) (env : List (String × Nat)) :
    List (Expr × String) → Option (List (Nat × String))
  | [] => some []
  | (e, x) :: rest =>
    match evalExpr w env e with
    | none => none
    | some v =>
      match evalConsts w ((x, v) :: env) rest with
      | none => none
      | some out => some ((v, x) :: out)

/-- The evaluated discriminant values of an enum's variants: resolve the
expressions as the analyzer does, then evaluate the generated constant chain. -/
def discValues (w : Nat) (variants : List Variant) : Option (List Nat) :=
  (evalConsts w [] (resolveDiscriminants variants)).map (List.map Prod.fst)

/-- Semantics of the generated `try_from_primitive` match: compare the input
number against each constant in declaration order; on the first match return
`Ok` of the corresponding variant, otherwise `Err(())` — a failure carrying
no payload. -/
def try_from_primitive (consts : List (Nat × String)) (number : Nat) :
    Except Unit String :=
  match consts with
  | [] => .error ()
  | (v, x) :: rest =>
    if number = v then .ok x else try_from_primitive rest number

/-- Semantics of the generated `From<Enum> for Primitive` (`enum_value as
Self`): an enum value, identified by its variant name, casts to that
variant's discriminant value. -/
def into_primitive (consts : List (Nat × String)) (x : String) : Option Nat :=
  (consts.find? (fun p => p.2 == x)).map Prod.fst

/-- Decidable form of "every explicit discriminant of these variants is an
integer literal that fits in the representation type of width `w`". -/
def allExplicitLit (w : Nat) (vs : List Variant) : Bool :=
  vs.all fun v =>
    match v.discriminant with
    | some (Expr.lit n) => decide (n < 2 ^ w)
    | some _ => false
    | none => true

/-- The resolution recurrence: given the value `nv` that the next implicit
variant would receive, the value list `ds` matches the variant list `vs` when
each explicit literal discriminant keeps its value verbatim and each implicit
variant receives the pending value, the following pending value always being
the current value wrapping-incremented by one modulo `2 ^ w`. -/
def followsChain (w : Nat) : Nat → List Variant → List Nat → Prop
  | _, [], [] => True
  | nv, v :: vs, d :: ds =>
    (match v.discriminant with
     | some (Expr.lit n) => d = n
     | some _ => False
     | none => d = nv) ∧ followsChain w ((d + 1) % 2 ^ w) vs ds
  | _, _, _ => False

/-- The first attribute that the analyzer's loop recognizes as a `repr`
`Meta::List`, if any. -/
def firstReprAttr : List Attr → Option MetaListAttr
  | [] => none
  | Attr.metaList m :: attrs =>
    if m.path = "repr" then some m else firstReprAttr attrs
  | Attr.other :: attrs => firstReprAttr attrs

/-- Modelled from the spec: the spec requires the representation annotation
to name "a fixed-width integer type"; the fixed-width integer identifiers of
the host language. -/
def isFixedWidthIntegerIdent (s : String) : Bool :=
  s ∈ ["u8", "u16", "u32", "u64", "u128", "usize",
       "i8", "i16", "i32", "i64", "i128", "isize"]

/-- The running example of the spec: variants A (no value), B (no value),
C (= 10), D (no value). -/
def exampleVariants : List Variant :=
  [⟨"A", none⟩, ⟨"B", none⟩, ⟨"C", some (Expr.lit 10)⟩, ⟨"D", none⟩]

/-- With pairwise distinct discriminant values, the generated match returns
`Ok` of the variant paired with the input value whenever that pair occurs. -/
theorem try_from_ok_of_mem (consts : List (Nat × String)) (d : Nat) (x : String)
    (hnodup : (consts.map Prod.fst).Nodup) (hmem : (d, x) ∈ consts) :
    try_from_primitive consts d = .ok x := by
  induction consts with
  | nil => simp at hmem
  | cons p rest ih =>
    obtain ⟨v, y⟩ := p
    simp only [List.map_cons, List.nodup_cons] at hnodup
    rcases List.mem_cons.mp hmem with h | h
    · rw [Prod.mk.injEq] at h
      obtain ⟨hd, hx⟩ := h
      subst hd; subst hx
      simp [try_from_primitive]
    · have hne : d ≠ v := by
        intro hdv
        subst hdv
        exact hnodup.1 (List.mem_map_of_mem Prod.fst h)
      simpa [try_from_primitive, hne] using ih hnodup.2 h

/-- The generated match returns the payload-free failure exactly when the
input value equals none of the constants. -/
theorem try_from_error_iff (consts : List (Nat × String)) (n : Nat) :
    try_from_primitive consts n = .error () ↔
      ∀ d x, (d, x) ∈ consts → n ≠ d := by
  induction consts with
  | nil => simp [try_from_primitive]
  | cons p rest ih =>
    obtain ⟨v, y⟩ := p
    by_cases h : n = v
    · subst h
      simp only [try_from_primitive, if_pos rfl]
      constructor
      · intro hcontra; cases hcontra
      · intro hall
        exact absurd rfl (hall n y (List.mem_cons_self _ _))
    · simp only [try_from_primitive, if_neg h, ih]
      constructor
      · intro hall d x hmem
        rcases List.mem_cons.mp hmem with heq | hmem'
        · rw [Prod.mk.injEq] at heq
          exact heq.1 ▸ h
        · exact hall d x hmem'
      · intro hall d x hmem
        exact hall d x (List.mem_cons_of_mem _ hmem)

/-- The attribute loop of the analyzer is determined by the first `repr`
`Meta::List` attribute: missing attribute, argument count different from
one, the `C` marker, and acceptance are all decided there; later attributes
are never inspected. -/
theorem findRepr_spec (attrs : List Attr) :
    findRepr attrs =
      match firstReprAttr attrs with
      | none => .error (Failure.diag
          ⟨Span.callSite, "Missing `#[repr({Integer})]` attribute"⟩)
      | some m =>
        match m.args with
        | [NestedArg.ident r rspan] =>
          if r = "C" then
            .error (Failure.diag
              ⟨Span.src rspan, "repr(C) doesn\x27t have a well defined size"⟩)
          else
            .ok (r, rspan)
        | [NestedArg.other _] => .error Failure.panicked
        | _ => .error (Failure.diag
            ⟨Span.src m.pathSpan, "Expected exactly one `repr` argument"⟩) := by
  induction attrs with
  | nil => rfl
  | cons a rest ih =>
    cases a with
    | other => simpa [findRepr, firstReprAttr] using ih
    | metaList m =>
      by_cases hp : m.path = "repr"
      · simp only [findRepr, firstReprAttr, if_pos hp]
        cases m.args with
        | nil => rfl
        | cons a t => cases a <;> cases t <;> rfl
      · simpa [findRepr, firstReprAttr, hp] using ih

/-- Evaluating the constant chain produced by `resolveAux`: when every
explicit discriminant is a fitting literal and the pending expression
evaluates to `nv`, evaluation succeeds, returns one constant per variant in
order, and the values follow the wrapping-increment recurrence. -/
theorem evalConsts_resolveAux (w : Nat) (vs : List Variant) :
    ∀ (env : List (String × Nat)) (next : Expr) (nv : Nat),
    allExplicitLit w vs = true →
    evalExpr w env next = some nv →
    ∃ out, evalConsts w env (resolveAux next vs) = some out ∧
      out.map Prod.snd = vs.map Variant.ident ∧
      followsChain w nv vs (out.map Prod.fst) := by
  induction vs with
  | nil =>
    intro env next nv _ _
    exact ⟨[], rfl, rfl, trivial⟩
  | cons v rest ih =>
    intro env next nv hall hnext
    have hall' := hall
    simp only [allExplicitLit, List.all_cons, Bool.and_eq_true] at hall'
    have hallrest : allExplicitLit w rest = true := hall'.2
    cases hd : v.discriminant with
    | none =>
      have hstep :
          evalExpr w ((v.ident, nv) :: env)
            (Expr.wrapping_add (Expr.ident v.ident) 1) =
            some ((nv + 1) % 2 ^ w) := by
        simp [evalExpr, List.lookup]
      obtain ⟨out, hout, hsnd, hchain⟩ := ih ((v.ident, nv) :: env) _ _ hallrest hstep
      refine ⟨(nv, v.ident) :: out, ?_, ?_, ?_⟩
      · simp [resolveAux, hd, evalConsts, hnext, hout]
      · simp [hsnd]
      · exact ⟨by simp [followsChain, hd], hchain⟩
    | some e =>
      rw [hd] at hall'
      have hlit : ∃ n, e = Expr.lit n ∧ n < 2 ^ w := by
        cases e with
        | lit n => exact ⟨n, rfl, by simpa using hall'.1⟩
        | ident _ => simp at hall'
        | wrapping_add _ _ => simp at hall'
      obtain ⟨n, he, hn⟩ := hlit
      subst he
      have heval : evalExpr w env (Expr.lit n) = some n := by
        simp [evalExpr, hn]
      have hstep :
          evalExpr w ((v.ident, n) :: env)
            (Expr.wrapping_add (Expr.ident v.ident) 1) =
            some ((n + 1) % 2 ^ w) := by
        simp [evalExpr, List.lookup]
      obtain ⟨out, hout, hsnd, hchain⟩ := ih ((v.ident, n) :: env) _ _ hallrest hstep
      refine ⟨(n, v.ident) :: out, ?_, ?_, ?_⟩
      · simp [resolveAux, hd, evalConsts, heval, hout]
      · simp [hsnd]
      · exact ⟨by simp [followsChain, hd], hchain⟩

/-- C1: for an enumeration whose variants have pairwise distinct
discriminants, the generated `try_from_primitive` returns success with the
variant whose discriminant equals the input whenever such a variant exists,
and returns the payload-free failure `Err(())` if and only if the input
equals none of the discriminants. -/
theorem C1_try_from_primitive_correct (consts : List (Nat × String)) (n : Nat)
    (hnodup : (consts.map Prod.fst).Nodup) :
    (∀ d x, (d, x) ∈ consts → n = d → try_from_primitive consts n = .ok x)
    ∧ (try_from_primitive consts n = .error () ↔
        ∀ d x, (d, x) ∈ consts → n ≠ d) := by
  constructor
  · intro d x hmem hnd
    subst hnd
    exact try_from_ok_of_mem consts n x hnodup hmem
  · exact try_from_error_iff consts n

/-- Witness for C1 on the concrete constant list [(0, A), (5, B)] at input 5. -/
theorem C1_try_from_primitive_correct_witness :
    (([(0, "A"), (5, "B")] : List (Nat × String)).map Prod.fst).Nodup
    ∧ ((∀ d x, (d, x) ∈ ([(0, "A"), (5, "B")] : List (Nat × String)) → 5 = d →
          try_from_primitive [(0, "A"), (5, "B")] 5 = .ok x)
       ∧ (try_from_primitive [(0, "A"), (5, "B")] 5 = .error () ↔
           ∀ d x, (d, x) ∈ ([(0, "A"), (5, "B")] : List (Nat × String)) → 5 ≠ d)) :=
  ⟨by decide, C1_try_from_primitive_correct [(0, "A"), (5, "B")] 5 (by decide)⟩

/-- C2: for an enumeration with pairwise distinct discriminants, applying the
generated fallible conversion to the result of the generated enum-to-primitive
cast of a variant returns success with exactly that variant. -/
theorem C2_round_trip (consts : List (Nat × String)) (x : String) (d : Nat)
    (hnodup : (consts.map Prod.fst).Nodup)
    (hinto : into_primitive consts x = some d) :
    try_from_primitive consts d = .ok x := by
  unfold into_primitive at hinto
  cases hfd : consts.find? (fun p => p.2 == x) with
  | none => rw [hfd] at hinto; simp at hinto
  | some p =>
    rw [hfd] at hinto
    have hmem : p ∈ consts := List.mem_of_find?_eq_some hfd
    have hpx : p.2 = x := by simpa using List.find?_some hfd
    have hd1 : p.1 = d := by simpa using hinto
    rw [← hd1, ← hpx]
    exact try_from_ok_of_mem consts p.1 p.2 hnodup hmem

/-- Witness for C2 on the concrete constant list [(0, A), (1, B)] and
variant B. -/
theorem C2_round_trip_witness :
    try_from_primitive [(0, "A"), (1, "B")] 1 = .ok "B" :=
  C2_round_trip [(0, "A"), (1, "B")] "B" 1 (by decide) (by decide)

/-- C3: when every explicit discriminant is a fitting literal, the analyzer
resolves discriminants in declaration order following the recurrence: an
explicit discriminant is kept verbatim, an implicit one is the previous
discriminant wrapping-incremented by one in the representation type, and a
leading implicit discriminant is zero; in particular for variants A (none),
B (none), C (= 10), D (none) the resolved values are 0, 1, 10, 11. -/
theorem C3_resolution_order :
    (∀ (w : Nat) (vs : List Variant), allExplicitLit w vs = true →
      ∃ ds, discValues w vs = some ds ∧ followsChain w 0 vs ds)
    ∧ discValues 8 exampleVariants = some [0, 1, 10, 11] := by
  constructor
  · intro w vs hall
    have h0 : evalExpr w [] (literal 0) = some 0 := by
      simp [evalExpr, literal, Nat.pos_pow_of_pos]
    obtain ⟨out, hout, _, hchain⟩ := evalConsts_resolveAux w vs [] _ _ hall h0
    exact ⟨out.map Prod.fst, by simp [discValues, resolveDiscriminants, hout], hchain⟩
  · rfl

/-- Witness for C3 on the spec's running example at width 8. -/
theorem C3_resolution_order_witness :
    allExplicitLit 8 exampleVariants = true
    ∧ ∃ ds, discValues 8 exampleVariants = some ds
        ∧ followsChain 8 0 exampleVariants ds :=
  ⟨by decide, C3_resolution_order.1 8 exampleVariants (by decide)⟩

/-- C4: implicit discriminant computation wraps modulo the representation
width: an explicit discriminant equal to the type's maximum value `2 ^ w - 1`
followed by an implicit variant resolves the latter to zero, with no
overflow failure; in particular for an 8-bit representation, 255 is followed
by 0. -/
theorem C4_wrapping (w : Nat) (a b : String) :
    discValues w [⟨a, some (Expr.lit (2 ^ w - 1))⟩, ⟨b, none⟩]
      = some [2 ^ w - 1, 0] := by
  have hpos : 0 < 2 ^ w := Nat.pos_pow_of_pos w (by norm_num)
  have hlt : 2 ^ w - 1 < 2 ^ w := Nat.sub_lt hpos one_pos
  have hwrap : (2 ^ w - 1 + 1) % 2 ^ w = 0 := by
    rw [Nat.sub_add_cancel hpos, Nat.mod_self]
  simp [discValues, resolveDiscriminants, resolveAux, evalConsts, evalExpr,
    List.lookup, hlt, hwrap]

/-- On a single nested `repr` argument that does not parse as an identifier
(such as `align(4)`), the analyzer panics rather than succeeding or raising
a `die!` diagnostic. -/
theorem findRepr_panics_on_non_ident_arg (psp sp : Nat) :
    findRepr [Attr.metaList ⟨"repr", psp, [NestedArg.other sp]⟩]
      = .error Failure.panicked := rfl

/-- C5 counterexample: the analyzer accepts a single `repr(transparent)`
annotation although `transparent` is not a fixed-width integer type, and it
accepts an input carrying two representation annotations (`repr(u8)`
followed by `repr(C)`), so neither condition of the claim causes failure. -/
theorem C5_counterexample :
    (∃ info,
      EnumInfo.parse
        ⟨"E", [Attr.metaList ⟨"repr", 0, [NestedArg.ident "transparent" 1]⟩],
          Data.enumData [⟨"A", none⟩]⟩ = .ok info)
    ∧ isFixedWidthIntegerIdent "transparent" = false
    ∧ (∃ info,
        EnumInfo.parse
          ⟨"E", [Attr.metaList ⟨"repr", 0, [NestedArg.ident "u8" 1]⟩,
                 Attr.metaList ⟨"repr", 2, [NestedArg.ident "C" 3]⟩],
            Data.enumData [⟨"A", none⟩]⟩ = .ok info) :=
  ⟨⟨_, rfl⟩, rfl, ⟨_, rfl⟩⟩

/-- C5 amended: the analyzer succeeds only when the input is an enum and the
first `repr` list annotation exists, carries exactly one nested argument,
and that argument is a plain identifier different from `C`; the analyzer
does not check that this identifier names a fixed-width integer type, and it
ignores every representation annotation after the first, so carrying more
than one does not cause failure. -/
theorem C5_success_necessary (input : DeriveInput)
    (hok : ∃ info, EnumInfo.parse input = .ok info) :
    (∃ vs, input.data = Data.enumData vs)
    ∧ ∃ m r sp, firstReprAttr input.attrs = some m
        ∧ m.args = [NestedArg.ident r sp] ∧ r ≠ "C" := by
  obtain ⟨info, hinfo⟩ := hok
  obtain ⟨nm, attrs, data⟩ := input
  cases data with
  | structData sp => simp [EnumInfo.parse] at hinfo
  | unionData sp => simp [EnumInfo.parse] at hinfo
  | enumData vs =>
    refine ⟨⟨vs, rfl⟩, ?_⟩
    simp only [EnumInfo.parse, findRepr_spec] at hinfo
    cases hf : firstReprAttr attrs with
    | none => simp [hf] at hinfo
    | some m =>
      simp only [hf] at hinfo
      refine ⟨m, ?_⟩
      match hargs : m.args with
      | [] => simp [hargs] at hinfo
      | [NestedArg.ident r sp] =>
        by_cases hr : r = "C"
        · subst hr; simp [hargs] at hinfo
        · exact ⟨r, sp, rfl, rfl, hr⟩
      | [NestedArg.other sp] => simp [hargs] at hinfo
      | p :: q :: rest => simp [hargs] at hinfo

/-- Witness for C5's amended claim on a concrete accepted `repr(u8)` enum. -/
theorem C5_success_necessary_witness :
    (∃ vs, (Data.enumData [] : Data) = Data.enumData vs)
    ∧ ∃ m r sp,
        firstReprAttr [Attr.metaList ⟨"repr", 0, [NestedArg.ident "u8" 1]⟩]
          = some m
        ∧ m.args = [NestedArg.ident r sp] ∧ r ≠ "C" :=
  C5_success_necessary
    ⟨"E", [Attr.metaList ⟨"repr", 0, [NestedArg.ident "u8" 1]⟩],
      Data.enumData []⟩
    ⟨⟨"E", "u8", []⟩, rfl⟩

/-- C6: a non-enum input (struct or union) fails with the "Expected enum"
diagnostic at the span of the offending `struct`/`union` token, producing no
analysis result. -/
theorem C6_not_enum (input : DeriveInput) :
    (∀ sp, input.data = Data.structData sp →
      EnumInfo.parse input = .error (Failure.diag ⟨Span.src sp, "Expected enum"⟩))
    ∧ (∀ sp, input.data = Data.unionData sp →
        EnumInfo.parse input
          = .error (Failure.diag ⟨Span.src sp, "Expected enum"⟩)) := by
  constructor
  · intro sp hdata
    simp [EnumInfo.parse, hdata]
  · intro sp hdata
    simp [EnumInfo.parse, hdata]

/-- Witness for C6 on a concrete struct input and a concrete union input. -/
theorem C6_not_enum_witness :
    EnumInfo.parse ⟨"S", [], Data.structData 3⟩
      = .error (Failure.diag ⟨Span.src 3, "Expected enum"⟩)
    ∧ EnumInfo.parse ⟨"U", [], Data.unionData 4⟩
        = .error (Failure.diag ⟨Span.src 4, "Expected enum"⟩) :=
  ⟨(C6_not_enum ⟨"S", [], Data.structData 3⟩).1 3 rfl,
   (C6_not_enum ⟨"U", [], Data.unionData 4⟩).2 4 rfl⟩

/-- C7: an enum input whose first `repr` annotation carries the single
argument `C` fails with the diagnostic that `repr(C)` has no well defined
size, at the span of that argument. -/
theorem C7_repr_c (input : DeriveInput) (vs : List Variant)
    (m : MetaListAttr) (sp : Nat)
    (hdata : input.data = Data.enumData vs)
    (hfirst : firstReprAttr input.attrs = some m)
    (hargs : m.args = [NestedArg.ident "C" sp]) :
    EnumInfo.parse input
      = .error (Failure.diag
          ⟨Span.src sp, "repr(C) doesn\x27t have a well defined size"⟩) := by
  simp [EnumInfo.parse, hdata, findRepr_spec, hfirst, hargs]

/-- Witness for C7 on a concrete enum carrying `repr(C)`. -/
theorem C7_repr_c_witness :
    EnumInfo.parse
      ⟨"E", [Attr.metaList ⟨"repr", 0, [NestedArg.ident "C" 9]⟩],
        Data.enumData []⟩
      = .error (Failure.diag
          ⟨Span.src 9, "repr(C) doesn\x27t have a well defined size"⟩) :=
  C7_repr_c
    ⟨"E", [Attr.metaList ⟨"repr", 0, [NestedArg.ident "C" 9]⟩],
      Data.enumData []⟩
    [] ⟨"repr", 0, [NestedArg.ident "C" 9]⟩ 9 rfl rfl rfl

/-- C8: an enum input carrying no `repr` list annotation at all fails with
the missing-attribute diagnostic at the call site. -/
theorem C8_missing_repr (input : DeriveInput) (vs : List Variant)
    (hdata : input.data = Data.enumData vs)
    (hnone : firstReprAttr input.attrs = none) :
    EnumInfo.parse input
      = .error (Failure.diag
          ⟨Span.callSite, "Missing `#[repr({Integer})]` attribute"⟩) := by
  simp [EnumInfo.parse, hdata, findRepr_spec, hnone]

/-- Witness for C8 on a concrete enum with only an unrecognized attribute. -/
theorem C8_missing_repr_witness :
    EnumInfo.parse ⟨"E", [Attr.other], Data.enumData [⟨"A", none⟩]⟩
      = .error (Failure.diag
          ⟨Span.callSite, "Missing `#[repr({Integer})]` attribute"⟩) :=
  C8_missing_repr ⟨"E", [Attr.other], Data.enumData [⟨"A", none⟩]⟩
    [⟨"A", none⟩] rfl rfl

/-- C9: an enum input whose first `repr` annotation has an argument count
different from one — in particular zero arguments — fails with the
"expected exactly one `repr` argument" diagnostic at the span of the `repr`
path identifier. -/
theorem C9_arg_count (input : DeriveInput) (vs : List Variant)
    (m : MetaListAttr)
    (hdata : input.data = Data.enumData vs)
    (hfirst : firstReprAttr input.attrs = some m)
    (hargs : m.args.length ≠ 1) :
    EnumInfo.parse input
      = .error (Failure.diag
          ⟨Span.src m.pathSpan, "Expected exactly one `repr` argument"⟩) := by
  simp only [EnumInfo.parse, hdata, findRepr_spec, hfirst]
  match hm : m.args with
  | [] => simp
  | [arg] => rw [hm] at hargs; simp at hargs
  | p :: q :: rest => simp

/-- Witness for C9 on a concrete enum carrying `repr()` with an empty
argument list. -/
theorem C9_arg_count_witness :
    EnumInfo.parse ⟨"E", [Attr.metaList ⟨"repr", 5, []⟩], Data.enumData []⟩
      = .error (Failure.diag
          ⟨Span.src 5, "Expected exactly one `repr` argument"⟩) :=
  C9_arg_count ⟨"E", [Attr.metaList ⟨"repr", 5, []⟩], Data.enumData []⟩
    [] ⟨"repr", 5, []⟩ rfl rfl (by decide)

/-- C10: for an enum with zero variants and a valid representation
annotation, analysis succeeds with an empty constant list, the generated
constant block evaluates to the empty environment, and the generated
`try_from_primitive` returns the payload-free failure on every input. -/
theorem C10_empty_enum (name r : String) (psp sp w n : Nat) (hr : r ≠ "C") :
    ∃ info,
      EnumInfo.parse
        ⟨name, [Attr.metaList ⟨"repr", psp, [NestedArg.ident r sp]⟩],
          Data.enumData []⟩
        = .ok info
      ∧ info.value_expressions_to_enum_keys = []
      ∧ evalConsts w [] info.value_expressions_to_enum_keys = some []
      ∧ try_from_primitive [] n = .error () := by
  refine ⟨⟨name, r, []⟩, ?_, rfl, rfl, rfl⟩
  simp [EnumInfo.parse, findRepr, hr, resolveDiscriminants, resolveAux]

/-- Witness for C10 on a concrete zero-variant enum with `repr(u8)`. -/
theorem C10_empty_enum_witness :
    ∃ info,
      EnumInfo.parse
        ⟨"E", [Attr.metaList ⟨"repr", 0, [NestedArg.ident "u8" 1]⟩],
          Data.enumData []⟩
        = .ok info
      ∧ info.value_expressions_to_enum_keys = []
      ∧ evalConsts 8 [] info.value_expressions_to_enum_keys = some []
      ∧ try_from_primitive [] 7 = .error () :=
  C10_empty_enum "E" "u8" 0 1 8 7 (by decide)

end NumEnum
